import Mathlib

/-!
Shallow embedding of the session memory subsystem of the repository
(`session_manager.py`) and proofs of the specification claims about it.

Modelling conventions:
* uuid4 identifiers are opaque tokens; they are modelled as natural numbers
  supplied explicitly to each operation (the source draws them from an
  external generator).
* `time.time()` float timestamps are modelled as integers supplied
  explicitly to each operation.
* the sqlite sessions table is modelled as a list of `Session` values keyed
  by `id`; `INSERT OR REPLACE` replaces the rows whose id matches.
* Python `list.sort` is a stable sort, and a stable sort for a total
  preorder is a unique function of its input; it is modelled by the stable
  `List.insertionSort` under the same total preorder.
* Python `list(set(xs))` is modelled by `List.eraseDups` (first occurrences
  kept); no claim depends on the iteration order of a Python set.
* `dict` metadata payloads are modelled as association lists.
-/

namespace RagSession

/-- The `KeyMomentType` enumeration of the source. -/
inductive KeyMomentType where
  | error_solved
  | feature_completed
  | config_changed
  | breakthrough
  | file_created
  | deployment
  | important_decision
  | refactoring
deriving DecidableEq, Repr

/-- The `MOMENT_IMPORTANCE` table of the source (defaults per moment type). -/
def MOMENT_IMPORTANCE : KeyMomentType → Nat
  | .breakthrough => 9
  | .error_solved => 8
  | .deployment => 8
  | .feature_completed => 7
  | .important_decision => 7
  | .config_changed => 6
  | .refactoring => 6
  | .file_created => 5

/-- The `SessionStatus` enumeration of the source. -/
inductive SessionStatus where
  | active
  | archived
  | closed
deriving DecidableEq, Repr, Inhabited

/-- The `Message` dataclass of the source. -/
structure Message where
  id : Nat
  timestamp : Int
  role : String
  content : String
  actions : List String
  files_involved : List String
  metadata : List (String × String)
deriving DecidableEq, Repr

/-- The `KeyMoment` dataclass of the source. -/
structure KeyMoment where
  id : Nat
  timestamp : Int
  type : KeyMomentType
  title : String
  summary : String
  importance : Nat
  files_involved : List String
  context : String
  related_messages : List Nat
  file_snapshots : List Nat
  code_snippets : List Nat
  project_context : List (String × String)
deriving DecidableEq, Repr

/-- The `CompressedPeriod` dataclass of the source. -/
structure CompressedPeriod where
  id : Nat
  start_time : Int
  end_time : Int
  summary : String
  key_achievements : List String
  files_involved : List String
  message_count : Nat
  key_moments : List Nat
deriving DecidableEq, Repr

/-- The `Session` dataclass of the source. -/
structure Session where
  id : Nat
  project_name : String
  created_at : Int
  last_used : Int
  status : SessionStatus
  messages : List Message
  key_moments : List KeyMoment
  compressed_history : List CompressedPeriod
  metadata : List (String × String)
deriving DecidableEq, Repr, Inhabited

/-- The two tunable attributes of `SessionManager` (`max_messages` is a
constructor argument, `compression_threshold` is an attribute set to 50 by
the constructor and reassigned freely by the tests). -/
structure Config where
  max_messages : Nat
  compression_threshold : Nat
deriving DecidableEq, Repr

/-- Boolean prefix test on character lists (helper for the Python substring
operator `in`). -/
def starts_with_chars : List Char → List Char → Bool
  | [], _ => true
  | _ :: _, [] => false
  | a :: as, b :: bs => a == b && starts_with_chars as bs

/-- Boolean containment of `needle` in a character list (helper for the
Python substring operator `in`). -/
def contains_chars (needle : List Char) : List Char → Bool
  | [] => starts_with_chars needle []
  | c :: rest => starts_with_chars needle (c :: rest) || contains_chars needle rest

/-- Python `needle in hay` on strings (substring containment). -/
def str_contains_sub (hay needle : String) : Bool :=
  contains_chars needle.toList hay.toList

/-- Python `str.lower()` character by character (`Char.toLower`, which
covers the ASCII inputs the claims evaluate; the keyword tables of the
source are already lowercase). -/
def py_lower (s : String) : String :=
  String.mk (s.toList.map Char.toLower)

/-- The sessions table: `get_session` looks rows up by id, `_save_session`
does `INSERT OR REPLACE` keyed by id. -/
abbrev SessionStore := List Session

/-- `SessionManager.get_session`: look a session up by id (`SELECT data FROM
sessions WHERE id = ?`). -/
def get_session (store : SessionStore) (session_id : Nat) : Option Session :=
  store.find? (fun s => s.id == session_id)

/-- `SessionManager._save_session`: `INSERT OR REPLACE` of the full session
aggregate keyed by id. -/
def save_session (store : SessionStore) (session : Session) : SessionStore :=
  if store.any (fun t => t.id == session.id) then
    store.map (fun t => if t.id == session.id then session else t)
  else
    store ++ [session]

/-- `SessionManager.create_session`: a fresh active session with empty
collections and both timestamps set to now. -/
def create_session (store : SessionStore) (project_name : String)
    (session_id : Nat) (now : Int) : Nat × SessionStore :=
  let session : Session :=
    { id := session_id, project_name := project_name, created_at := now,
      last_used := now, status := SessionStatus.active, messages := [],
      key_moments := [], compressed_history := [], metadata := [] }
  (session_id, save_session store session)

/-- Order used by `session.messages.sort(key=lambda x: x.timestamp)`.
Python `list.sort` is stable, so it computes the same list as the stable
`List.insertionSort` under the same total preorder. -/
def msg_le (a b : Message) : Prop :=
  a.timestamp ≤ b.timestamp

instance : DecidableRel msg_le := fun a b =>
  inferInstanceAs (Decidable (a.timestamp ≤ b.timestamp))

instance : IsTotal Message msg_le :=
  ⟨by intro a b; unfold msg_le; omega⟩

instance : IsTrans Message msg_le :=
  ⟨by intro a b c h1 h2; unfold msg_le at *; omega⟩

/-- Order used by
`session.key_moments.sort(key=lambda x: (-x.importance, -x.timestamp))`:
importance descending, then timestamp descending. -/
def km_le (a b : KeyMoment) : Prop :=
  b.importance < a.importance ∨
    (a.importance = b.importance ∧ b.timestamp ≤ a.timestamp)

instance : DecidableRel km_le := fun a b =>
  inferInstanceAs (Decidable (b.importance < a.importance ∨
    (a.importance = b.importance ∧ b.timestamp ≤ a.timestamp)))

instance : IsTotal KeyMoment km_le :=
  ⟨by intro a b; unfold km_le; omega⟩

instance : IsTrans KeyMoment km_le :=
  ⟨by intro a b c h1 h2; unfold km_le at *; omega⟩

/-- Order used by
`session.compressed_history.sort(key=lambda x: x.start_time)`. -/
def period_le (a b : CompressedPeriod) : Prop :=
  a.start_time ≤ b.start_time

instance : DecidableRel period_le := fun a b =>
  inferInstanceAs (Decidable (a.start_time ≤ b.start_time))

instance : IsTotal CompressedPeriod period_le :=
  ⟨by intro a b; unfold period_le; omega⟩

instance : IsTrans CompressedPeriod period_le :=
  ⟨by intro a b c h1 h2; unfold period_le at *; omega⟩

/-- `SessionManager._generate_summary` for a compressed period. -/
def generate_summary (messages : List Message) : String :=
  if messages.isEmpty then ""
  else
    let user_messages := messages.filter (fun m => m.role == "user")
    let assistant_messages := messages.filter (fun m => m.role == "assistant")
    let all_actions := messages.flatMap (fun m => m.actions)
    let unique_actions := all_actions.eraseDups
    let summary_parts :=
      (if user_messages.isEmpty then []
       else ["Обработано " ++ toString user_messages.length ++ " запросов пользователя"]) ++
      (if assistant_messages.isEmpty then []
       else ["Дано " ++ toString assistant_messages.length ++ " ответов"]) ++
      (if unique_actions.isEmpty then []
       else ["Выполнены действия: " ++ String.intercalate ", " (unique_actions.take 5)])
    String.intercalate "; " summary_parts

/-- `SessionManager._extract_achievements`: keyword buckets over the evicted
messages, capped at 10. -/
def extract_achievements (messages : List Message) : List String :=
  (messages.flatMap (fun msg =>
    let content_lower := py_lower msg.content
    (if ["completed", "finished", "done", "success"].any
          (fun w => str_contains_sub content_lower w) then
       ["Завершено: " ++ msg.content.take 100 ++ "..."] else []) ++
    (if ["created", "added", "implemented"].any
          (fun w => str_contains_sub content_lower w) then
       ["Создано: " ++ msg.content.take 100 ++ "..."] else []) ++
    (if ["fixed", "resolved", "solved"].any
          (fun w => str_contains_sub content_lower w) then
       ["Исправлено: " ++ msg.content.take 100 ++ "..."] else []))).take 10

/-- The `CompressedPeriod` built by `_compress_session` from the nonempty
evicted batch `messages_to_compress = first :: _` and the session key
moments; `start_time` and `end_time` are the first and last timestamps of
the batch, and `key_moments` selects moments by timestamp window. -/
def compression_period (period_id : Nat) (first : Message)
    (messages_to_compress : List Message) (key_moments : List KeyMoment) :
    CompressedPeriod :=
  let start_time := first.timestamp
  let end_time := (messages_to_compress.getLastD first).timestamp
  { id := period_id
    start_time := start_time
    end_time := end_time
    summary := generate_summary messages_to_compress
    key_achievements := extract_achievements messages_to_compress
    files_involved := (messages_to_compress.flatMap (fun m => m.files_involved)).eraseDups
    message_count := messages_to_compress.length
    key_moments := (key_moments.filter (fun km =>
      decide (start_time ≤ km.timestamp) && decide (km.timestamp ≤ end_time))).map
      (fun km => km.id) }

/-- `SessionManager._compress_session`: a no-op when the count is within
`max_messages`; otherwise sort the messages by timestamp, move the oldest
`compression_threshold` of them out, and append one compressed period built
from the evicted batch, then keep `compressed_history` sorted by
`start_time`. The source assigns the remaining slice to `session.messages`
before the emptiness check, which the nil branch mirrors. -/
def compress_session (cfg : Config) (period_id : Nat) (session : Session) : Session :=
  if session.messages.length ≤ cfg.max_messages then session
  else
    match (List.insertionSort msg_le session.messages).take cfg.compression_threshold with
    | [] =>
      { session with
        messages := (List.insertionSort msg_le session.messages).drop cfg.compression_threshold }
    | first :: rest =>
      { session with
        messages := (List.insertionSort msg_le session.messages).drop cfg.compression_threshold
        compressed_history :=
          ((session.compressed_history ++
            [compression_period period_id first (first :: rest) session.key_moments]).insertionSort
            period_le) }

/-- The new message and session update performed by `add_message` before the
compression check. -/
def append_message (session : Session) (message : Message) (now : Int) : Session :=
  { session with messages := session.messages ++ [message], last_used := now }

/-- `SessionManager.add_message`: report not-found as `false`; otherwise
append a fresh message, touch `last_used`, compress when the count exceeds
`max_messages`, and persist. -/
def add_message (cfg : Config) (store : SessionStore) (session_id : Nat)
    (role content : String) (actions files : List String)
    (metadata : List (String × String)) (now : Int) (msg_id period_id : Nat) :
    Bool × SessionStore :=
  match get_session store session_id with
  | none => (false, store)
  | some session =>
    let message : Message :=
      { id := msg_id, timestamp := now, role := role, content := content,
        actions := actions, files_involved := files, metadata := metadata }
    let session1 := append_message session message now
    let session2 :=
      if cfg.max_messages < session1.messages.length then
        compress_session cfg period_id session1
      else session1
    (true, save_session store session2)

/-- The `KeyMoment` built by `add_key_moment` (importance already resolved
through the `MOMENT_IMPORTANCE` default). -/
def new_key_moment (km_id : Nat) (now : Int) (moment_type : KeyMomentType)
    (title summary : String) (importance : Nat) (files : List String)
    (context : String) (related_messages : List Nat) : KeyMoment :=
  { id := km_id, timestamp := now, type := moment_type, title := title,
    summary := summary, importance := importance, files_involved := files,
    context := context, related_messages := related_messages,
    file_snapshots := [], code_snippets := [], project_context := [] }

/-- `SessionManager.add_key_moment`: report not-found as `false`; otherwise
append the new moment (importance defaulted from `MOMENT_IMPORTANCE` when
missing), re-sort by (importance desc, timestamp desc), touch `last_used`,
and persist. -/
def add_key_moment (store : SessionStore) (session_id : Nat)
    (moment_type : KeyMomentType) (title summary : String)
    (importance : Option Nat) (files : List String) (context : String)
    (related_messages : List Nat) (now : Int) (km_id : Nat) :
    Bool × SessionStore :=
  match get_session store session_id with
  | none => (false, store)
  | some session =>
    let imp := importance.getD (MOMENT_IMPORTANCE moment_type)
    let key_moment :=
      new_key_moment km_id now moment_type title summary imp files context related_messages
    let session1 :=
      { session with
        key_moments := List.insertionSort km_le (session.key_moments ++ [key_moment])
        last_used := now }
    (true, save_session store session1)

/-- `SessionManager.archive_session`: report not-found as `false`; otherwise
set the status to archived, touch `last_used`, and persist. -/
def archive_session (store : SessionStore) (session_id : Nat) (now : Int) :
    Bool × SessionStore :=
  match get_session store session_id with
  | none => (false, store)
  | some session =>
    (true, save_session store
      { session with status := SessionStatus.archived, last_used := now })

/-- `SessionManager.cleanup_old_sessions`: archive the active sessions idle
past `days_threshold` days, then delete the archived sessions idle past 90
days, and return both row counts. -/
def cleanup_old_sessions (store : SessionStore) (now : Int)
    (days_threshold : Int) : (Nat × Nat) × SessionStore :=
  let threshold_time := now - days_threshold * 24 * 60 * 60
  let archived_count := (store.filter (fun s =>
    decide (s.last_used < threshold_time) && decide (s.status = SessionStatus.active))).length
  let store1 := store.map (fun s =>
    if decide (s.last_used < threshold_time) && decide (s.status = SessionStatus.active) then
      { s with status := SessionStatus.archived }
    else s)
  let very_old_threshold := now - 90 * 24 * 60 * 60
  let deleted_count := (store1.filter (fun s =>
    decide (s.last_used < very_old_threshold) && decide (s.status = SessionStatus.archived))).length
  let store2 := store1.filter (fun s =>
    !(decide (s.last_used < very_old_threshold) && decide (s.status = SessionStatus.archived)))
  ((archived_count, deleted_count), store2)

/-- A row of the `file_snapshots` table. -/
structure FileSnapshotRow where
  id : Nat
  file_path : String
  content : String
  content_hash : String
  language : String
  size_bytes : Nat
  timestamp : Int
  encoding : String
  session_id : Nat
deriving DecidableEq, Repr

/-- A row of the `code_snippets` table. -/
structure CodeSnippetRow where
  id : Nat
  file_snapshot_id : Nat
  content : String
  language : String
  start_line : Int
  end_line : Int
  context_before : String
  context_after : String
  timestamp : Int
deriving DecidableEq, Repr

/-- The artifact side of the database. `parse_ast_symbols` extracts code
symbols with the Python `ast` module or regexes; its body is outside what a
shallow embedding can express, so the state records only how many times the
analyzer was invoked (`ast_parse_calls`), which is all the claims observe. -/
structure ArtifactStore where
  snapshots : List FileSnapshotRow
  snippets : List CodeSnippetRow
  ast_parse_calls : Nat
deriving DecidableEq, Repr

/-- Index of the last `.` in a character list, if any (helper for the
`pathlib` suffix computation). -/
def last_dot_idx : List Char → Option Nat
  | [] => none
  | c :: rest =>
    match last_dot_idx rest with
    | some i => some (i + 1)
    | none => if c == '.' then some 0 else none

/-- `pathlib.Path(file_path).suffix`: the extension (with the dot) of the
final path component, empty when the dot is leading, trailing or absent. -/
def path_suffix (file_path : String) : String :=
  let name := (file_path.splitOn "/").getLastD ""
  match last_dot_idx name.toList with
  | some i =>
    if 0 < i && i < name.length - 1 then String.mk (name.toList.drop i) else ""
  | none => ""

/-- The extension table of `SessionManager._detect_language`. -/
def language_map : List (String × String) :=
  [(".py", "python"), (".js", "javascript"), (".jsx", "javascript"),
   (".ts", "typescript"), (".tsx", "typescript"), (".php", "php"),
   (".go", "go"), (".rs", "rust"), (".java", "java"), (".cpp", "cpp"),
   (".c", "c"), (".cs", "csharp"), (".rb", "ruby"), (".vue", "vue"),
   (".html", "html"), (".css", "css"), (".scss", "scss"), (".sass", "sass"),
   (".sql", "sql"), (".sh", "bash"), (".yaml", "yaml"), (".yml", "yaml"),
   (".json", "json"), (".xml", "xml"), (".md", "markdown")]

/-- `SessionManager._detect_language`: map the lowercased extension through
the fixed table, defaulting to generic text. -/
def detect_language (file_path : String) : String :=
  let extension := (path_suffix file_path).toLower
  match language_map.find? (fun p => p.1 == extension) with
  | some p => p.2
  | none => "text"

/-- Step of the `ORDER BY timestamp DESC LIMIT 1` selection. -/
def later_snapshot (acc : Option FileSnapshotRow) (r : FileSnapshotRow) :
    Option FileSnapshotRow :=
  match acc with
  | none => some r
  | some b => if b.timestamp < r.timestamp then some r else some b

/-- `SELECT id FROM file_snapshots WHERE file_path = ? AND content_hash = ?
ORDER BY timestamp DESC LIMIT 1` over the already filtered rows. -/
def latest_snapshot (rows : List FileSnapshotRow) : Option FileSnapshotRow :=
  rows.foldl later_snapshot none

/-- Language resolution of `save_file_snapshot`: infer from the file
extension only when the caller passed none. -/
def resolved_language (language file_path : String) : String :=
  if language == "" then detect_language file_path else language

/-- The languages for which `save_file_snapshot` runs the AST analyzer. -/
def supported_language (l : String) : Bool :=
  l == "python" || l == "javascript" || l == "typescript"

/-- The `file_snapshots` row inserted by `save_file_snapshot` on a dedup
miss. -/
def snapshot_row (hash_fn : String → String) (session_id : Nat)
    (file_path content language : String) (snapshot_id : Nat) (now : Int) :
    FileSnapshotRow :=
  { id := snapshot_id, file_path := file_path, content := content,
    content_hash := hash_fn content,
    language := resolved_language language file_path,
    size_bytes := content.utf8ByteSize, timestamp := now,
    encoding := "utf-8", session_id := session_id }

/-- `SessionManager.save_file_snapshot`: content-addressed dedup on
(file_path, sha256(content)). On a hit the stored id is returned and nothing
changes; on a miss the language is inferred when absent, one row is
inserted, and the AST analyzer runs for the supported languages. The SHA-256
digest is modelled by the explicit `hash_fn` parameter. -/
def save_file_snapshot (hash_fn : String → String) (st : ArtifactStore)
    (session_id : Nat) (file_path content language : String)
    (snapshot_id : Nat) (now : Int) : Nat × ArtifactStore :=
  let matching := st.snapshots.filter (fun r =>
    r.file_path == file_path && r.content_hash == hash_fn content)
  match latest_snapshot matching with
  | some row => (row.id, st)
  | none =>
    let row := snapshot_row hash_fn session_id file_path content language snapshot_id now
    (snapshot_id,
      { st with
        snapshots := st.snapshots ++ [row]
        ast_parse_calls :=
          if supported_language row.language then st.ast_parse_calls + 1
          else st.ast_parse_calls })

/-- `SessionManager.create_code_snippet`: always insert one snippet row with
a fresh id, inheriting the language from the parent snapshot when it exists
and storing the empty string otherwise. -/
def create_code_snippet (st : ArtifactStore) (file_snapshot_id : Nat)
    (content : String) (start_line end_line : Int)
    (context_before context_after : String) (snippet_id : Nat) (now : Int) :
    Nat × ArtifactStore :=
  let language :=
    match st.snapshots.find? (fun r => r.id == file_snapshot_id) with
    | some r => r.language
    | none => ""
  let row : CodeSnippetRow :=
    { id := snippet_id, file_snapshot_id := file_snapshot_id,
      content := content, language := language, start_line := start_line,
      end_line := end_line, context_before := context_before,
      context_after := context_after, timestamp := now }
  (snippet_id, { st with snippets := st.snippets ++ [row] })

/-- Keyword family for `ERROR_SOLVED` in `auto_detect_key_moments`. -/
def error_keywords : List String :=
  ["error", "fix", "solved", "resolved", "bug", "issue", "problem",
   "ошибка", "исправлен", "решен", "решена", "исправлена", "починен", "починена",
   "баг", "проблема", "устранен", "устранена", "фикс", "исправление"]

/-- Creation actions for `FILE_CREATED` in `auto_detect_key_moments`. -/
def creation_actions : List String :=
  ["create", "write", "add", "создать", "написать", "добавить"]

/-- Keyword family for `FEATURE_COMPLETED` in `auto_detect_key_moments`. -/
def completion_keywords : List String :=
  ["completed", "finished", "done", "implemented", "ready", "success",
   "завершен", "завершена", "готов", "готова", "выполнен", "выполнена",
   "реализован", "реализована", "закончен", "закончена", "сделан", "сделана"]

/-- Keyword family for `CONFIG_CHANGED` in `auto_detect_key_moments`. -/
def config_keywords : List String :=
  ["config", "settings", "yaml", "json", "configuration",
   "конфигурация", "настройки", "настройка", "конфиг", "параметры"]

/-- Keyword family for `REFACTORING` in `auto_detect_key_moments`. -/
def refactoring_keywords : List String :=
  ["refactor", "refactored", "restructure", "optimize", "optimized",
   "рефакторинг", "рефакторил", "рефакторила", "оптимизирован", "оптимизирована",
   "переработан", "переработана", "реструктуризация", "улучшен", "улучшена"]

/-- Keyword family for `IMPORTANT_DECISION` in `auto_detect_key_moments`. -/
def decision_keywords : List String :=
  ["decided", "decision", "choice", "selected", "approach",
   "решил", "решила", "решение", "выбор", "подход", "стратегия",
   "принято решение", "выбран", "выбрана"]

/-- The module-level pure detector `auto_detect_key_moments`: category
checks in fixed order over (lowercased content, actions, files), each
producing one (type, title, summary) candidate. -/
def auto_detect_key_moments (message_content : String) (actions files : List String) :
    List (KeyMomentType × String × String) :=
  let content_lower := py_lower message_content
  (if error_keywords.any (fun w => str_contains_sub content_lower w) then
    [(KeyMomentType.error_solved, "Решение ошибки",
      "Обнаружено и исправлено: " ++ message_content.take 200 ++ "...")]
   else []) ++
  (if creation_actions.any (fun a => actions.contains a) && !files.isEmpty then
    [(KeyMomentType.file_created, "Создание файла " ++ files.headD "",
      "Создан файл " ++ files.headD "" ++ " с функциональностью: " ++
        message_content.take 200 ++ "...")]
   else []) ++
  (if completion_keywords.any (fun w => str_contains_sub content_lower w) then
    [(KeyMomentType.feature_completed, "Завершение функции",
      "Реализована функция: " ++ message_content.take 200 ++ "...")]
   else []) ++
  (if config_keywords.any (fun w => str_contains_sub content_lower w) && !files.isEmpty then
    [(KeyMomentType.config_changed, "Изменение конфигурации",
      "Обновлена конфигурация в " ++ files.headD "" ++ ": " ++
        message_content.take 200 ++ "...")]
   else []) ++
  (if refactoring_keywords.any (fun w => str_contains_sub content_lower w) then
    [(KeyMomentType.refactoring, "Рефакторинг кода",
      "Проведен рефакторинг: " ++ message_content.take 200 ++ "...")]
   else []) ++
  (if decision_keywords.any (fun w => str_contains_sub content_lower w) then
    [(KeyMomentType.important_decision, "Важное решение",
      "Принято решение: " ++ message_content.take 200 ++ "...")]
   else [])

/-- One `add_message` call with all its environment inputs (timestamp and
generated ids) made explicit. -/
structure AddCall where
  session_id : Nat
  role : String
  content : String
  actions : List String
  files : List String
  metadata : List (String × String)
  now : Int
  msg_id : Nat
  period_id : Nat
deriving DecidableEq, Repr

/-- Run a sequence of `add_message` calls against the store. -/
def run_adds (cfg : Config) (store : SessionStore) : List AddCall → SessionStore
  | [] => store
  | c :: rest =>
    run_adds cfg
      (add_message cfg store c.session_id c.role c.content c.actions c.files
        c.metadata c.now c.msg_id c.period_id).2 rest

/-- The seventeen alternating user/assistant `add_message` calls of the C2
scenario, with strictly increasing timestamps and distinct generated ids. -/
def seventeen_calls : List AddCall :=
  (List.range 17).map (fun i =>
    { session_id := 0
      role := if i % 2 == 0 then "user" else "assistant"
      content := ""
      actions := []
      files := []
      metadata := []
      now := Int.ofNat i + 1
      msg_id := 100 + i
      period_id := 1000 + i })

/-- Message fixture for concrete witnesses. -/
def demo_msg (i : Nat) (t : Int) : Message :=
  { id := i, timestamp := t, role := "user", content := "", actions := [],
    files_involved := [], metadata := [] }

/-- Session fixture for concrete witnesses. -/
def demo_session (msgs : List Message) (kms : List KeyMoment) : Session :=
  { id := 0, project_name := "demo", created_at := 0, last_used := 0,
    status := SessionStatus.active, messages := msgs, key_moments := kms,
    compressed_history := [], metadata := [] }

/-- Idle active session fixture for the cleanup witnesses. -/
def stale_session (last_used : Int) : Session :=
  { id := 0, project_name := "demo", created_at := 0, last_used := last_used,
    status := SessionStatus.active, messages := [], key_moments := [],
    compressed_history := [], metadata := [] }

/-! ### Basic lemmas about the store operations -/

lemma get_session_mem {store : SessionStore} {sid : Nat} {s : Session}
    (h : get_session store sid = some s) : s ∈ store :=
  List.mem_of_find?_eq_some h

lemma get_session_id {store : SessionStore} {sid : Nat} {s : Session}
    (h : get_session store sid = some s) : s.id = sid := by
  have hp := List.find?_some h
  simpa using hp

lemma mem_save_session {store : SessionStore} {s t : Session}
    (h : t ∈ save_session store s) : t = s ∨ t ∈ store := by
  unfold save_session at h
  by_cases hany : store.any (fun u => u.id == s.id)
  · rw [if_pos hany] at h
    obtain ⟨u, hu, hut⟩ := List.mem_map.mp h
    by_cases hid : (u.id == s.id) = true
    · left; rw [← hut, if_pos hid]
    · right; rw [← hut, if_neg hid]; exact hu
  · rw [if_neg hany] at h
    rcases List.mem_append.mp h with h1 | h1
    · right; exact h1
    · left; simpa using h1

lemma get_session_map_replace {sid : Nat} (s' : Session) (hid : s'.id = sid) :
    ∀ (store : SessionStore) (s : Session), get_session store sid = some s →
      get_session (store.map (fun t => if t.id == s'.id then s' else t)) sid = some s'
  | [], s, h => by simp [get_session] at h
  | t :: rest, s, h => by
    by_cases ht : (t.id == sid) = true
    · have h1 : (t.id == s'.id) = true := by rw [hid]; exact ht
      have h2 : (s'.id == sid) = true := by simp [hid]
      simp only [get_session, List.map_cons, if_pos h1]
      exact List.find?_cons_of_pos (p := fun u : Session => u.id == sid) _ h2
    · have h1 : (t.id == s'.id) = false := by
        rw [hid]; exact Bool.eq_false_iff.mpr ht
      have hrest : get_session rest sid = some s := by
        have hh := h
        rw [get_session,
          List.find?_cons_of_neg (p := fun u : Session => u.id == sid) _ (by simp [ht])] at hh
        exact hh
      simp only [get_session, List.map_cons, h1, if_false, Bool.false_eq_true]
      rw [List.find?_cons_of_neg (p := fun u : Session => u.id == sid) _ (by simp [ht])]
      exact get_session_map_replace s' hid rest s hrest

lemma get_session_save_session {store : SessionStore} {sid : Nat} {s : Session}
    (hs : get_session store sid = some s) (s' : Session) (hid : s'.id = s.id) :
    get_session (save_session store s') sid = some s' := by
  have hsid : s'.id = sid := hid.trans (get_session_id hs)
  unfold save_session
  have hany : store.any (fun t => t.id == s'.id) = true :=
    List.any_eq_true.mpr ⟨s, get_session_mem hs, by simp [hsid, get_session_id hs]⟩
  rw [if_pos hany]
  exact get_session_map_replace s' hsid store s hs

/-! ### Lemmas about compression -/

lemma compress_session_of_le {cfg : Config} {period_id : Nat} {s : Session}
    (h : s.messages.length ≤ cfg.max_messages) :
    compress_session cfg period_id s = s := by
  unfold compress_session
  rw [if_pos h]

lemma compress_session_key_moments (cfg : Config) (period_id : Nat) (s : Session) :
    (compress_session cfg period_id s).key_moments = s.key_moments := by
  unfold compress_session
  by_cases h : s.messages.length ≤ cfg.max_messages
  · rw [if_pos h]
  · rw [if_neg h]
    cases hevict : (List.insertionSort msg_le s.messages).take cfg.compression_threshold with
    | nil => rfl
    | cons first rest => rfl

lemma compress_session_messages_length (cfg : Config) (period_id : Nat) (s : Session) :
    (compress_session cfg period_id s).messages.length =
      if s.messages.length ≤ cfg.max_messages then s.messages.length
      else s.messages.length - cfg.compression_threshold := by
  unfold compress_session
  by_cases h : s.messages.length ≤ cfg.max_messages
  · rw [if_pos h, if_pos h]
  · rw [if_neg h, if_neg h]
    cases hevict : (List.insertionSort msg_le s.messages).take cfg.compression_threshold with
    | nil => simp
    | cons first rest => simp

lemma evicted_ne_nil {cfg : Config} {s : Session}
    (hthr : 1 ≤ cfg.compression_threshold)
    (hlen : cfg.max_messages < s.messages.length) :
    (List.insertionSort msg_le s.messages).take cfg.compression_threshold ≠ [] := by
  intro h
  rw [List.take_eq_nil_iff] at h
  rcases h with h | h
  · omega
  · have hl : (List.insertionSort msg_le s.messages).length = s.messages.length :=
      (List.perm_insertionSort msg_le s.messages).length_eq
    rw [h] at hl
    simp at hl
    omega

lemma compress_session_overflow (cfg : Config) (period_id : Nat) (s : Session)
    (hlen : ¬ s.messages.length ≤ cfg.max_messages) (first : Message)
    (rest : List Message)
    (hevict : (List.insertionSort msg_le s.messages).take cfg.compression_threshold = first :: rest) :
    compress_session cfg period_id s =
      { s with
        messages := (List.insertionSort msg_le s.messages).drop cfg.compression_threshold
        compressed_history :=
          ((s.compressed_history ++
            [compression_period period_id first (first :: rest) s.key_moments]).insertionSort
            period_le) } := by
  unfold compress_session
  rw [if_neg hlen, hevict]

/-! ### Lemmas about the artifact store -/

lemma foldl_later_snapshot_isSome (rows : List FileSnapshotRow) :
    ∀ b : FileSnapshotRow, (rows.foldl later_snapshot (some b)).isSome := by
  induction rows with
  | nil => intro b; rfl
  | cons r rest ih =>
    intro b
    simp only [List.foldl_cons, later_snapshot]
    by_cases h : b.timestamp < r.timestamp
    · rw [if_pos h]; exact ih r
    · rw [if_neg h]; exact ih b

lemma latest_snapshot_eq_none_iff (rows : List FileSnapshotRow) :
    latest_snapshot rows = none ↔ rows = [] := by
  cases rows with
  | nil => simp [latest_snapshot]
  | cons r rest =>
    simp only [latest_snapshot, List.foldl_cons, later_snapshot]
    constructor
    · intro h
      have hs := foldl_later_snapshot_isSome rest r
      rw [h] at hs
      simp at hs
    · intro h
      simp at h

lemma save_file_snapshot_hit {hash_fn : String → String} {st : ArtifactStore}
    {file_path content : String} {row : FileSnapshotRow}
    (hm : latest_snapshot (st.snapshots.filter (fun r =>
      r.file_path == file_path && r.content_hash == hash_fn content)) = some row)
    (session_id : Nat) (language : String) (snapshot_id : Nat) (now : Int) :
    save_file_snapshot hash_fn st session_id file_path content language
      snapshot_id now = (row.id, st) := by
  simp only [save_file_snapshot]
  rw [hm]

lemma save_file_snapshot_miss {hash_fn : String → String} {st : ArtifactStore}
    {file_path content : String}
    (hm : latest_snapshot (st.snapshots.filter (fun r =>
      r.file_path == file_path && r.content_hash == hash_fn content)) = none)
    (session_id : Nat) (language : String) (snapshot_id : Nat) (now : Int) :
    save_file_snapshot hash_fn st session_id file_path content language
      snapshot_id now =
      (snapshot_id,
        { st with
          snapshots := st.snapshots ++
            [snapshot_row hash_fn session_id file_path content language snapshot_id now]
          ast_parse_calls :=
            if supported_language
                (snapshot_row hash_fn session_id file_path content language
                  snapshot_id now).language then
              st.ast_parse_calls + 1
            else st.ast_parse_calls }) := by
  simp only [save_file_snapshot]
  rw [hm]

/-! ### Claim theorems -/

/-- Claim C8: when the target session does not exist, `add_message`,
`add_key_moment` and `archive_session` report not-found by returning false
instead of raising, and the store is unchanged. -/
theorem not_found_reports_false (cfg : Config) (store : SessionStore)
    (session_id : Nat) (h : get_session store session_id = none)
    (role content : String) (actions files : List String)
    (metadata : List (String × String)) (now : Int) (msg_id period_id : Nat)
    (moment_type : KeyMomentType) (title summary : String)
    (importance : Option Nat) (context : String) (related_messages : List Nat)
    (km_id : Nat) (archive_now : Int) :
    add_message cfg store session_id role content actions files metadata now
        msg_id period_id = (false, store) ∧
    add_key_moment store session_id moment_type title summary importance files
        context related_messages now km_id = (false, store) ∧
    archive_session store session_id archive_now = (false, store) := by
  refine ⟨?_, ?_, ?_⟩ <;>
    simp [add_message, add_key_moment, archive_session, h]

/-- Witness for C8 at the empty store. -/
theorem not_found_reports_false_witness :
    add_message { max_messages := 200, compression_threshold := 50 } [] 0
        "user" "hello" [] [] [] 0 1 2 = (false, []) ∧
    add_key_moment [] 0 KeyMomentType.breakthrough "t" "s" none [] "" [] 0 3
      = (false, []) ∧
    archive_session [] 0 0 = (false, []) :=
  not_found_reports_false { max_messages := 200, compression_threshold := 50 }
    [] 0 rfl "user" "hello" [] [] [] 0 1 2 KeyMomentType.breakthrough "t" "s"
    none "" [] 3 0

/-- Claim C9: the pure detector flags the first reference input with an
ERROR_SOLVED candidate (non-empty result) and returns the empty list on the
second reference input. -/
theorem auto_detect_reference_inputs :
    (auto_detect_key_moments "Fixed the bug in login.py" ["provide_answer"]
        ["login.py"] ≠ [] ∧
      (auto_detect_key_moments "Fixed the bug in login.py" ["provide_answer"]
          ["login.py"]).any (fun m => m.1 == KeyMomentType.error_solved) = true) ∧
    auto_detect_key_moments "Just a regular status update" [] [] = [] := by
  refine ⟨⟨?_, ?_⟩, ?_⟩ <;> decide

/-- Claim C10: `create_code_snippet` always inserts one new snippet row and
returns its fresh id, even when the parent snapshot id does not exist; in
that case the stored language is the empty string rather than the call
being rejected. -/
theorem create_code_snippet_always_inserts (st : ArtifactStore)
    (file_snapshot_id : Nat) (content : String) (start_line end_line : Int)
    (context_before context_after : String) (snippet_id : Nat) (now : Int)
    (hfresh : ∀ r ∈ st.snippets, r.id ≠ snippet_id) :
    (create_code_snippet st file_snapshot_id content start_line end_line
        context_before context_after snippet_id now).1 = snippet_id ∧
    (create_code_snippet st file_snapshot_id content start_line end_line
        context_before context_after snippet_id now).2.snapshots = st.snapshots ∧
    (create_code_snippet st file_snapshot_id content start_line end_line
        context_before context_after snippet_id now).2.snippets.length
      = st.snippets.length + 1 ∧
    ∃ row : CodeSnippetRow,
      (create_code_snippet st file_snapshot_id content start_line end_line
          context_before context_after snippet_id now).2.snippets
        = st.snippets ++ [row] ∧
      row.id = snippet_id ∧
      row.file_snapshot_id = file_snapshot_id ∧
      (∀ r ∈ st.snippets, r.id ≠ row.id) ∧
      (st.snapshots.find? (fun r => r.id == file_snapshot_id) = none →
        row.language = "") := by
  refine ⟨rfl, rfl, by simp [create_code_snippet], ?_⟩
  refine ⟨_, rfl, rfl, rfl, hfresh, ?_⟩
  intro hnone
  simp only [create_code_snippet, hnone]

/-- Witness for C10: inserting into the empty artifact store with a parent
snapshot id that does not exist stores the empty-string language. -/
theorem create_code_snippet_always_inserts_witness :
    (create_code_snippet { snapshots := [], snippets := [], ast_parse_calls := 0 }
        5 "x" 1 2 "" "" 7 0).1 = 7 ∧
    (create_code_snippet { snapshots := [], snippets := [], ast_parse_calls := 0 }
        5 "x" 1 2 "" "" 7 0).2.snapshots = [] ∧
    (create_code_snippet { snapshots := [], snippets := [], ast_parse_calls := 0 }
        5 "x" 1 2 "" "" 7 0).2.snippets.length = 0 + 1 ∧
    ∃ row : CodeSnippetRow,
      (create_code_snippet { snapshots := [], snippets := [], ast_parse_calls := 0 }
          5 "x" 1 2 "" "" 7 0).2.snippets = [] ++ [row] ∧
      row.id = 7 ∧
      row.file_snapshot_id = 5 ∧
      (∀ r ∈ ([] : List CodeSnippetRow), r.id ≠ row.id) ∧
      (([] : List FileSnapshotRow).find? (fun r => r.id == 5) = none →
        row.language = "") :=
  create_code_snippet_always_inserts
    { snapshots := [], snippets := [], ast_parse_calls := 0 }
    5 "x" 1 2 "" "" 7 0 (by simp)

/-- Claim C6: from a store holding at most one snapshot row for the pair
(file_path, hash(content)), two `save_file_snapshot` calls with identical
(file_path, content) return the same id, the second call changes nothing
(no new row, no analyzer run), and exactly one row for the pair remains. -/
theorem save_file_snapshot_idempotent (hash_fn : String → String)
    (st : ArtifactStore) (sid1 sid2 : Nat) (file_path content language : String)
    (id1 id2 : Nat) (t1 t2 : Int)
    (hdedup : (st.snapshots.filter (fun r =>
      r.file_path == file_path && r.content_hash == hash_fn content)).length ≤ 1) :
    (save_file_snapshot hash_fn
        (save_file_snapshot hash_fn st sid1 file_path content language id1 t1).2
        sid2 file_path content language id2 t2).1
      = (save_file_snapshot hash_fn st sid1 file_path content language id1 t1).1 ∧
    (save_file_snapshot hash_fn
        (save_file_snapshot hash_fn st sid1 file_path content language id1 t1).2
        sid2 file_path content language id2 t2).2
      = (save_file_snapshot hash_fn st sid1 file_path content language id1 t1).2 ∧
    ((save_file_snapshot hash_fn st sid1 file_path content language id1 t1).2.snapshots.filter
        (fun r => r.file_path == file_path && r.content_hash == hash_fn content)).length
      = 1 := by
  cases hm : latest_snapshot (st.snapshots.filter (fun r =>
      r.file_path == file_path && r.content_hash == hash_fn content)) with
  | some row =>
    have h1 := save_file_snapshot_hit hm sid1 language id1 t1
    have h2 := save_file_snapshot_hit hm sid2 language id2 t2
    have hne : st.snapshots.filter (fun r =>
        r.file_path == file_path && r.content_hash == hash_fn content) ≠ [] := by
      intro hnil
      rw [(latest_snapshot_eq_none_iff _).mpr hnil] at hm
      exact Option.noConfusion hm
    have hpos : 0 < (st.snapshots.filter (fun r =>
        r.file_path == file_path && r.content_hash == hash_fn content)).length :=
      List.length_pos.mpr hne
    refine ⟨?_, ?_, ?_⟩
    · rw [h1]; exact congrArg Prod.fst h2
    · rw [h1]; exact congrArg Prod.snd h2
    · rw [h1]
      show (st.snapshots.filter (fun r =>
        r.file_path == file_path && r.content_hash == hash_fn content)).length = 1
      omega
  | none =>
    have hnil : st.snapshots.filter (fun r =>
        r.file_path == file_path && r.content_hash == hash_fn content) = [] :=
      (latest_snapshot_eq_none_iff _).mp hm
    have h1 := save_file_snapshot_miss hm sid1 language id1 t1
    have hfilter1 : (save_file_snapshot hash_fn st sid1 file_path content
        language id1 t1).2.snapshots.filter (fun r =>
          r.file_path == file_path && r.content_hash == hash_fn content)
        = [snapshot_row hash_fn sid1 file_path content language id1 t1] := by
      rw [h1]
      show (st.snapshots ++
        [snapshot_row hash_fn sid1 file_path content language id1 t1]).filter _ = _
      simp [List.filter_append, hnil, snapshot_row]
    have hm2 : latest_snapshot ((save_file_snapshot hash_fn st sid1 file_path
        content language id1 t1).2.snapshots.filter (fun r =>
          r.file_path == file_path && r.content_hash == hash_fn content))
        = some (snapshot_row hash_fn sid1 file_path content language id1 t1) := by
      rw [hfilter1]; rfl
    have h2 := save_file_snapshot_hit hm2 sid2 language id2 t2
    refine ⟨?_, ?_, ?_⟩
    · rw [h2, h1]; rfl
    · rw [h2]
    · rw [hfilter1]; rfl

/-- Witness for C6 at the empty artifact store and the identity digest. -/
theorem save_file_snapshot_idempotent_witness :
    (save_file_snapshot (fun s => s)
        (save_file_snapshot (fun s => s)
          { snapshots := [], snippets := [], ast_parse_calls := 0 }
          1 "a.py" "print" "" 11 5).2
        2 "a.py" "print" "" 12 6).1
      = (save_file_snapshot (fun s => s)
          { snapshots := [], snippets := [], ast_parse_calls := 0 }
          1 "a.py" "print" "" 11 5).1 ∧
    (save_file_snapshot (fun s => s)
        (save_file_snapshot (fun s => s)
          { snapshots := [], snippets := [], ast_parse_calls := 0 }
          1 "a.py" "print" "" 11 5).2
        2 "a.py" "print" "" 12 6).2
      = (save_file_snapshot (fun s => s)
          { snapshots := [], snippets := [], ast_parse_calls := 0 }
          1 "a.py" "print" "" 11 5).2 ∧
    ((save_file_snapshot (fun s => s)
        { snapshots := [], snippets := [], ast_parse_calls := 0 }
        1 "a.py" "print" "" 11 5).2.snapshots.filter
          (fun r => r.file_path == "a.py" && r.content_hash == "print")).length
      = 1 :=
  save_file_snapshot_idempotent (fun s => s)
    { snapshots := [], snippets := [], ast_parse_calls := 0 }
    1 2 "a.py" "print" "" 11 12 5 6 (by simp)

/-- The message count after the compression check of `add_message` stays
within the configured bound whenever the session was within the bound
before the call and the compression threshold is positive. -/
lemma add_message_session_bound (cfg : Config)
    (hthr : 1 ≤ cfg.compression_threshold) (sess : Session) (message : Message)
    (now : Int) (period_id : Nat)
    (hb : sess.messages.length ≤ cfg.max_messages) :
    (if cfg.max_messages < (append_message sess message now).messages.length then
        compress_session cfg period_id (append_message sess message now)
      else append_message sess message now).messages.length ≤ cfg.max_messages := by
  have hlen : (append_message sess message now).messages.length
      = sess.messages.length + 1 := by
    simp [append_message]
  by_cases hc : cfg.max_messages < (append_message sess message now).messages.length
  · rw [if_pos hc, compress_session_messages_length,
      if_neg (by omega :
        ¬ (append_message sess message now).messages.length ≤ cfg.max_messages)]
    omega
  · rw [if_neg hc]; omega

/-- One `add_message` call preserves the per-session message bound across
the store. -/
lemma add_message_preserves_bound (cfg : Config)
    (hthr : 1 ≤ cfg.compression_threshold) (store : SessionStore) (c : AddCall)
    (hstore : ∀ s ∈ store, s.messages.length ≤ cfg.max_messages) :
    ∀ s ∈ (add_message cfg store c.session_id c.role c.content c.actions
        c.files c.metadata c.now c.msg_id c.period_id).2,
      s.messages.length ≤ cfg.max_messages := by
  intro s hs
  cases hget : get_session store c.session_id with
  | none =>
    simp only [add_message, hget] at hs
    exact hstore s hs
  | some sess =>
    simp only [add_message, hget] at hs
    rcases mem_save_session hs with rfl | hmem
    · exact add_message_session_bound cfg hthr sess _ c.now c.period_id
        (hstore sess (get_session_mem hget))
    · exact hstore s hmem

/-- Claim C1: over every sequence of `add_message` calls from a store whose
sessions are within the message bound, every session stays within
`max_messages` after every call. -/
theorem messages_bounded_after_add_message (cfg : Config)
    (hthr : 1 ≤ cfg.compression_threshold) (store : SessionStore)
    (calls : List AddCall)
    (hstore : ∀ s ∈ store, s.messages.length ≤ cfg.max_messages) :
    ∀ s ∈ run_adds cfg store calls, s.messages.length ≤ cfg.max_messages := by
  induction calls generalizing store with
  | nil => simpa [run_adds] using hstore
  | cons c rest ih =>
    intro s hs
    rw [run_adds] at hs
    exact ih _ (add_message_preserves_bound cfg hthr store c hstore) s hs

/-- Witness for C1: a concrete run on a freshly created session. -/
theorem messages_bounded_after_add_message_witness :
    ((run_adds { max_messages := 10, compression_threshold := 5 }
        (create_session [] "demo" 0 0).2
        [{ session_id := 0, role := "user", content := "hi", actions := [],
           files := [], metadata := [], now := 1, msg_id := 1,
           period_id := 2 }]).headD default).messages.length ≤ 10 :=
  messages_bounded_after_add_message
    { max_messages := 10, compression_threshold := 5 } (by decide)
    (create_session [] "demo" 0 0).2
    [{ session_id := 0, role := "user", content := "hi", actions := [],
       files := [], metadata := [], now := 1, msg_id := 1, period_id := 2 }]
    (by decide) _ (by decide)

/-- Claim C2: with max_messages = 10 and compression_threshold = 5, after 17
alternating messages the session holds at most 10 messages, compression has
happened, and the compressed message counts plus the live count restore 17. -/
theorem message_conservation_scenario :
    get_session (run_adds { max_messages := 10, compression_threshold := 5 }
      (create_session [] "demo" 0 0).2 seventeen_calls) 0 ≠ none ∧
    ((get_session (run_adds { max_messages := 10, compression_threshold := 5 }
        (create_session [] "demo" 0 0).2 seventeen_calls) 0).getD default).messages.length
      ≤ 10 ∧
    0 < ((get_session (run_adds { max_messages := 10, compression_threshold := 5 }
        (create_session [] "demo" 0 0).2 seventeen_calls) 0).getD
          default).compressed_history.length ∧
    (((get_session (run_adds { max_messages := 10, compression_threshold := 5 }
        (create_session [] "demo" 0 0).2 seventeen_calls) 0).getD
          default).compressed_history.map (fun p => p.message_count)).sum
      + ((get_session (run_adds { max_messages := 10, compression_threshold := 5 }
          (create_session [] "demo" 0 0).2 seventeen_calls) 0).getD
            default).messages.length = 17 := by
  refine ⟨by decide, by decide, by decide, by decide⟩

/-- Claim C3: a compression call is a no-op when the count is within
`max_messages`; otherwise it removes the first `compression_threshold`
entries of the time-sorted list (at most `compression_threshold` many, with
the removed and remaining counts adding back to the old total) and appends
exactly one compressed period spanning the first and last timestamps of the
evicted batch and counting exactly the evicted messages. -/
theorem compress_no_op_and_single_period (cfg : Config) (period_id : Nat)
    (s : Session) (hthr : 1 ≤ cfg.compression_threshold) :
    (s.messages.length ≤ cfg.max_messages →
      compress_session cfg period_id s = s) ∧
    (cfg.max_messages < s.messages.length →
      (compress_session cfg period_id s).messages
        = (List.insertionSort msg_le s.messages).drop cfg.compression_threshold ∧
      ((List.insertionSort msg_le s.messages).take cfg.compression_threshold).length
        ≤ cfg.compression_threshold ∧
      (compress_session cfg period_id s).messages.length
        + ((List.insertionSort msg_le s.messages).take
            cfg.compression_threshold).length
        = s.messages.length ∧
      ∃ p : CompressedPeriod,
        (compress_session cfg period_id s).compressed_history.Perm
          (s.compressed_history ++ [p]) ∧
        p.message_count
          = ((List.insertionSort msg_le s.messages).take
              cfg.compression_threshold).length ∧
        (∀ m, ((List.insertionSort msg_le s.messages).take
            cfg.compression_threshold).head? = some m →
          p.start_time = m.timestamp) ∧
        (∀ m, ((List.insertionSort msg_le s.messages).take
            cfg.compression_threshold).getLast? = some m →
          p.end_time = m.timestamp)) := by
  constructor
  · intro h
    exact compress_session_of_le h
  · intro hlen
    have hne := evicted_ne_nil hthr hlen
    have hsortlen : (List.insertionSort msg_le s.messages).length
        = s.messages.length :=
      (List.perm_insertionSort msg_le s.messages).length_eq
    cases hev : (List.insertionSort msg_le s.messages).take
        cfg.compression_threshold with
    | nil => exact absurd hev hne
    | cons first rest =>
      have htake_len : (first :: rest).length
          = min cfg.compression_threshold s.messages.length := by
        rw [← hev, List.length_take, hsortlen]
      rw [compress_session_overflow cfg period_id s (by omega) first rest hev]
      refine ⟨rfl, ?_, ?_, ?_⟩
      · rw [htake_len]; omega
      · simp only [List.length_drop, hsortlen, htake_len]
        omega
      · refine ⟨compression_period period_id first (first :: rest) s.key_moments,
          List.perm_insertionSort period_le _, rfl, ?_, ?_⟩
        · intro m hm
          have hmf : first = m := by
            simpa using hm
          rw [← hmf]
          rfl
        · intro m hm
          show ((first :: rest).getLastD first).timestamp = m.timestamp
          rw [List.getLastD_eq_getLast?, hm]
          rfl

/-- Witness for C3: the no-op branch on a one-message session within the
bound, and the eviction branch on a two-message session over the bound. -/
theorem compress_no_op_and_single_period_witness :
    compress_session { max_messages := 1, compression_threshold := 1 } 99
        (demo_session [demo_msg 1 1] [])
      = demo_session [demo_msg 1 1] [] ∧
    (compress_session { max_messages := 1, compression_threshold := 1 } 99
        (demo_session [demo_msg 1 1, demo_msg 2 2] [])).messages
      = (List.insertionSort msg_le
          (demo_session [demo_msg 1 1, demo_msg 2 2] []).messages).drop 1 :=
  ⟨(compress_no_op_and_single_period
      { max_messages := 1, compression_threshold := 1 } 99
      (demo_session [demo_msg 1 1] []) (by decide)).1 (by decide),
   ((compress_no_op_and_single_period
      { max_messages := 1, compression_threshold := 1 } 99
      (demo_session [demo_msg 1 1, demo_msg 2 2] []) (by decide)).2
      (by decide)).1⟩

/-- Claim C4: compression never touches `session.key_moments`, and the new
period references exactly the key moments whose timestamp falls inside the
evicted [start_time, end_time] window, selected by timestamp. -/
theorem compress_preserves_key_moments (cfg : Config) (period_id : Nat)
    (s : Session) (hthr : 1 ≤ cfg.compression_threshold) :
    (compress_session cfg period_id s).key_moments = s.key_moments ∧
    (cfg.max_messages < s.messages.length →
      ∃ p : CompressedPeriod,
        p ∈ (compress_session cfg period_id s).compressed_history ∧
        (compress_session cfg period_id s).compressed_history.Perm
          (s.compressed_history ++ [p]) ∧
        p.key_moments = (s.key_moments.filter (fun km =>
          decide (p.start_time ≤ km.timestamp) &&
            decide (km.timestamp ≤ p.end_time))).map (fun km => km.id)) := by
  refine ⟨compress_session_key_moments cfg period_id s, ?_⟩
  intro hlen
  have hne := evicted_ne_nil hthr hlen
  cases hev : (List.insertionSort msg_le s.messages).take
      cfg.compression_threshold with
  | nil => exact absurd hev hne
  | cons first rest =>
    rw [compress_session_overflow cfg period_id s (by omega) first rest hev]
    refine ⟨compression_period period_id first (first :: rest) s.key_moments,
      ?_, List.perm_insertionSort period_le _, rfl⟩
    exact (List.perm_insertionSort period_le _).mem_iff.mpr (by simp)

/-- Witness for C4 on a two-message session with one key moment inside the
evicted window. -/
theorem compress_preserves_key_moments_witness :
    (compress_session { max_messages := 1, compression_threshold := 1 } 99
        (demo_session [demo_msg 1 1, demo_msg 2 2]
          [new_key_moment 3 1 KeyMomentType.breakthrough "t" "s" 9 [] "" []])).key_moments
      = (demo_session [demo_msg 1 1, demo_msg 2 2]
          [new_key_moment 3 1 KeyMomentType.breakthrough "t" "s" 9 [] "" []]).key_moments :=
  (compress_preserves_key_moments
    { max_messages := 1, compression_threshold := 1 } 99
    (demo_session [demo_msg 1 1, demo_msg 2 2]
      [new_key_moment 3 1 KeyMomentType.breakthrough "t" "s" 9 [] "" []])
    (by decide)).1

/-- An element of strictly maximal importance appended to the list lands at
the head of the (importance desc, timestamp desc) sort. -/
lemma insertionSort_head_of_strict_max {new : KeyMoment} {old : List KeyMoment}
    (himp : ∀ km ∈ old, km.importance < new.importance) :
    (List.insertionSort km_le (old ++ [new])).head? = some new := by
  have hperm := List.perm_insertionSort km_le (old ++ [new])
  have hsorted := List.sorted_insertionSort km_le (old ++ [new])
  cases hres : List.insertionSort km_le (old ++ [new]) with
  | nil =>
    have hlen := hperm.length_eq
    rw [hres] at hlen
    simp at hlen
  | cons h t =>
    rw [hres] at hperm hsorted
    have hmem_h : h ∈ old ++ [new] := hperm.mem_iff.mp (by simp)
    by_cases hh : h = new
    · rw [hh]
      rfl
    · exfalso
      have hin : h ∈ old := by
        rcases List.mem_append.mp hmem_h with h1 | h1
        · exact h1
        · simp at h1
          exact absurd h1 hh
      have hlt := himp h hin
      have hnew_mem : new ∈ h :: t := hperm.mem_iff.mpr (by simp)
      have hnew_t : new ∈ t := by
        cases hnew_mem with
        | head => exact absurd rfl hh
        | tail _ h2 => exact h2
      have hrel : km_le h new := ((List.sorted_cons.mp hsorted).1 new hnew_t)
      unfold km_le at hrel
      omega

/-- Claim C5: after every `add_key_moment` call the stored list is sorted by
(importance desc, timestamp desc), and a new moment of strictly maximal
importance lands at index 0. -/
theorem key_moments_sorted_after_add (store : SessionStore) (session_id : Nat)
    (moment_type : KeyMomentType) (title summary : String)
    (importance : Option Nat) (files : List String) (context : String)
    (related_messages : List Nat) (now : Int) (km_id : Nat) (s : Session)
    (hs : get_session store session_id = some s) :
    ∃ s1 : Session,
      get_session (add_key_moment store session_id moment_type title summary
        importance files context related_messages now km_id).2 session_id
        = some s1 ∧
      s1.key_moments.Pairwise km_le ∧
      ((∀ km ∈ s.key_moments,
          km.importance < importance.getD (MOMENT_IMPORTANCE moment_type)) →
        s1.key_moments.head? = some (new_key_moment km_id now moment_type title
          summary (importance.getD (MOMENT_IMPORTANCE moment_type)) files
          context related_messages)) := by
  refine ⟨{ s with
      key_moments := List.insertionSort km_le (s.key_moments ++
        [new_key_moment km_id now moment_type title summary
          (importance.getD (MOMENT_IMPORTANCE moment_type)) files context
          related_messages])
      last_used := now }, ?_, ?_, ?_⟩
  · simp only [add_key_moment, hs]
    exact get_session_save_session hs _ rfl
  · exact List.sorted_insertionSort km_le _
  · intro himp
    exact insertionSort_head_of_strict_max himp

/-- Witness for C5: adding a breakthrough moment to a session that already
holds a lower-importance moment. -/
theorem key_moments_sorted_after_add_witness :
    ∃ s1 : Session,
      get_session (add_key_moment
        [demo_session [] [new_key_moment 1 1 KeyMomentType.file_created "a" "b" 5 [] "" []]]
        0 KeyMomentType.breakthrough "t" "s" none [] "" [] 5 7).2 0 = some s1 ∧
      s1.key_moments.Pairwise km_le ∧
      ((∀ km ∈ (demo_session []
          [new_key_moment 1 1 KeyMomentType.file_created "a" "b" 5 [] "" []]).key_moments,
          km.importance
            < (none : Option Nat).getD (MOMENT_IMPORTANCE KeyMomentType.breakthrough)) →
        s1.key_moments.head? = some (new_key_moment 7 5 KeyMomentType.breakthrough
          "t" "s" ((none : Option Nat).getD (MOMENT_IMPORTANCE KeyMomentType.breakthrough))
          [] "" [])) :=
  key_moments_sorted_after_add
    [demo_session [] [new_key_moment 1 1 KeyMomentType.file_created "a" "b" 5 [] "" []]]
    0 KeyMomentType.breakthrough "t" "s" none [] "" [] 5 7
    (demo_session [] [new_key_moment 1 1 KeyMomentType.file_created "a" "b" 5 [] "" []])
    rfl

/-- Claim C7: `cleanup_old_sessions` is a two-phase sweep returning
(archived_count, deleted_count): the first count is the number of active
sessions idle past the threshold, the second the number of sessions — over
the original store — that end up archived and idle past 90 days; an
archived-but-recent-enough session survives with status archived, and a
session idle past 90 days that is archived (or gets archived in this very
pass) is deleted, so looking it up afterwards returns none. -/
theorem cleanup_two_phase_sweep (store : SessionStore)
    (now days_threshold : Int)
    (hids : (store.map (fun s => s.id)).Nodup) :
    (cleanup_old_sessions store now days_threshold).1.1
      = (store.filter (fun s =>
          decide (s.last_used < now - days_threshold * 24 * 60 * 60) &&
            decide (s.status = SessionStatus.active))).length ∧
    (cleanup_old_sessions store now days_threshold).1.2
      = (store.filter (fun s =>
          decide (s.last_used < now - 90 * 24 * 60 * 60) &&
            (decide (s.status = SessionStatus.archived) ||
              (decide (s.last_used < now - days_threshold * 24 * 60 * 60) &&
                decide (s.status = SessionStatus.active))))).length ∧
    (∀ s ∈ store, s.status = SessionStatus.active →
      s.last_used < now - days_threshold * 24 * 60 * 60 →
      now - 90 * 24 * 60 * 60 ≤ s.last_used →
      { s with status := SessionStatus.archived }
        ∈ (cleanup_old_sessions store now days_threshold).2) ∧
    (∀ s ∈ store, s.last_used < now - 90 * 24 * 60 * 60 →
      (s.status = SessionStatus.archived ∨
        (s.status = SessionStatus.active ∧
          s.last_used < now - days_threshold * 24 * 60 * 60)) →
      get_session (cleanup_old_sessions store now days_threshold).2 s.id
        = none) := by
  refine ⟨rfl, ?_, ?_, ?_⟩
  · show ((store.map (fun s =>
        if decide (s.last_used < now - days_threshold * 24 * 60 * 60) &&
            decide (s.status = SessionStatus.active) then
          { s with status := SessionStatus.archived }
        else s)).filter (fun s =>
          decide (s.last_used < now - 90 * 24 * 60 * 60) &&
            decide (s.status = SessionStatus.archived))).length = _
    rw [List.filter_map, List.length_map]
    refine congrArg List.length (List.filter_congr ?_)
    intro a _
    by_cases h1 : a.last_used < now - days_threshold * 24 * 60 * 60 <;>
      by_cases h2 : a.status = SessionStatus.active <;>
      simp [h1, h2, Function.comp]
  · intro s hm hactive hold hrecent
    show { s with status := SessionStatus.archived }
      ∈ (store.map (fun s =>
          if decide (s.last_used < now - days_threshold * 24 * 60 * 60) &&
              decide (s.status = SessionStatus.active) then
            { s with status := SessionStatus.archived }
          else s)).filter (fun s =>
            !(decide (s.last_used < now - 90 * 24 * 60 * 60) &&
              decide (s.status = SessionStatus.archived)))
    refine List.mem_filter.mpr ⟨?_, ?_⟩
    · refine List.mem_map.mpr ⟨s, hm, ?_⟩
      simp [hold, hactive]
    · simp only [Bool.not_eq_eq_eq_not, Bool.not_true, Bool.and_eq_false_imp]
      intro hlt
      exfalso
      simp only [decide_eq_true_iff] at hlt
      omega
  · intro s hm hvt hcase
    show get_session ((store.map (fun s =>
        if decide (s.last_used < now - days_threshold * 24 * 60 * 60) &&
            decide (s.status = SessionStatus.active) then
          { s with status := SessionStatus.archived }
        else s)).filter (fun s =>
          !(decide (s.last_used < now - 90 * 24 * 60 * 60) &&
            decide (s.status = SessionStatus.archived)))) s.id = none
    unfold get_session
    rw [List.find?_eq_none]
    intro t ht hpt
    obtain ⟨htm, hkeep⟩ := List.mem_filter.mp ht
    obtain ⟨u, hu, hfu⟩ := List.mem_map.mp htm
    have htu_id : t.id = u.id := by
      rw [← hfu]
      split
      · rfl
      · rfl
    have hus : u = s := by
      refine List.inj_on_of_nodup_map hids hu hm ?_
      have hts : t.id = s.id := by simpa using hpt
      rw [← htu_id, hts]
    subst hus
    rcases hcase with harch | ⟨hact, htt⟩
    · have hfs : (if decide (u.last_used < now - days_threshold * 24 * 60 * 60) &&
          decide (u.status = SessionStatus.active) then
            { u with status := SessionStatus.archived }
          else u) = u := by
        simp [harch]
      rw [hfs] at hfu
      subst hfu
      simp [harch] at hkeep
      omega
    · have hfs : (if decide (u.last_used < now - days_threshold * 24 * 60 * 60) &&
          decide (u.status = SessionStatus.active) then
            { u with status := SessionStatus.archived }
          else u) = { u with status := SessionStatus.archived } := by
        simp [hact, htt]
      rw [hfs] at hfu
      subst hfu
      simp at hkeep
      omega

/-- Witness for C7: a session idle 40 days is archived by the first sweep at
threshold 30 and survives; after it has been idle past 90 days while
archived, the second sweep deletes it and the lookup returns none. -/
theorem cleanup_two_phase_sweep_witness :
    ({ stale_session (60 * 86400) with status := SessionStatus.archived }
      ∈ (cleanup_old_sessions [stale_session (60 * 86400)]
          (100 * 86400) 30).2) ∧
    get_session (cleanup_old_sessions
      (cleanup_old_sessions [stale_session (60 * 86400)] (100 * 86400) 30).2
      (200 * 86400) 30).2 0 = none := by
  have h1 := cleanup_two_phase_sweep [stale_session (60 * 86400)]
    (100 * 86400) 30 (by decide)
  have hmem := h1.2.2.1 (stale_session (60 * 86400)) (by simp) rfl
    (by decide) (by decide)
  refine ⟨hmem, ?_⟩
  have h2 := cleanup_two_phase_sweep
    (cleanup_old_sessions [stale_session (60 * 86400)] (100 * 86400) 30).2
    (200 * 86400) 30 (by decide)
  exact h2.2.2.2 { stale_session (60 * 86400) with status := SessionStatus.archived }
    hmem (by decide) (Or.inl rfl)

end RagSession
